import Mathlib

/-!
Verification of the blogger logging library.

This file gives a shallow embedding of the canonical-log assembly pipeline
(`logger/canonical_logger.go`), the custom zap encoder (`CoolEncoder.EncodeEntry`)
and the gRPC-client sensitive-field masker (`maskSensitiveDataUsingStructTag`),
and proves the testable properties of the specification against it.

Modelling conventions:
- Go strings that are only carried around are modelled as Lean `String`;
  Go strings whose bytes are indexed (the masker slices `strValue[0:1]`,
  `strValue[len-1:]`) are modelled as byte lists (`List Nat`).
- `encoding/json.Unmarshal` into `map[string]interface{}` is the Go standard
  library, not repository code; it is taken as an explicit function parameter
  `jsonUnmarshal : String → Option JsonObj` (returning `none` exactly when
  unmarshalling errors).  The repository code only branches on that outcome.
- `strings.Split`, `strings.Join`, `strings.Contains` and `strings.ToLower`
  (ASCII range) are modelled directly (`goSplit`, `goJoin`, `goContains`,
  `goToLower`).
- The compiled `html/template` template
  `"[{{.Transport}}][{{.Traffic}}] {{.Method}} {{.Status}} {{.Path}} {{.Duration}} - {{.Message}}"`
  is modelled by `renderCanonicalLogTemplate`.  `html/template` HTML-escapes
  every interpolated value in a text context (`htmlEscape` below mirrors its
  replacement table).  `time.Duration` is interpolated through its `String()`
  method, so the `Duration` field is modelled by that rendered string.
- The process-global template pointer (`canonicalLogTemplate`) is modelled by
  a boolean parameter `templateCompiled`; when it is false the code falls back
  to the fixed failure message.
- Emission through the slog sink is modelled by returning the emitted record
  (severity, message, field list) instead of writing it.
-/

namespace Blogger

/-! Models of the Go standard-library string helpers. -/

/-- One step of `strings.Contains`: `sub` occurs in `s` iff it is a prefix of
`s` or occurs in its tail (Go's `strings.Index(s, sub) >= 0`). -/
def goContainsChars : List Char → List Char → Bool
  | [], sub => sub.isPrefixOf ([] : List Char)
  | c :: rest, sub => sub.isPrefixOf (c :: rest) || goContainsChars rest sub

/-- Model of Go `strings.Contains`. -/
def goContains (s sub : String) : Bool :=
  goContainsChars s.data sub.data

/-- Model of Go `strings.ToLower` (the route keys and deny patterns of this
repository are ASCII, where Unicode and ASCII lowercasing agree). -/
def goToLower (s : String) : String :=
  String.mk (s.data.map Char.toLower)

/-- Worker for `goSplit`; the fuel argument is an upper bound on the length of
the list being split, so the `0, _ :: _` case is never reached from `goSplit`. -/
def goSplitCharsAux (sep : List Char) : Nat → List Char → List (List Char)
  | _, [] => [[]]
  | 0, _ :: _ => [[]]
  | fuel + 1, c :: rest =>
    if sep ≠ [] ∧ sep.isPrefixOf (c :: rest) then
      [] :: goSplitCharsAux sep fuel ((c :: rest).drop sep.length)
    else
      match goSplitCharsAux sep fuel rest with
      | [] => [[c]]
      | hd :: tl => (c :: hd) :: tl

/-- Model of Go `strings.Split` for a non-empty separator: all substrings
between consecutive (non-overlapping, leftmost) occurrences of `sep`. -/
def goSplit (s sep : String) : List String :=
  (goSplitCharsAux sep.data s.data.length s.data).map String.mk

/-- Model of Go `strings.Join`. -/
def goJoin (elems : List String) (sep : String) : String :=
  match elems with
  | [] => ""
  | x :: xs => xs.foldl (fun acc e => acc ++ sep ++ e) x

/-- Character-level core of `goJoin`, used to relate joining to splitting. -/
def goJoinChars (sep : List Char) : List (List Char) → List Char
  | [] => []
  | x :: xs => xs.foldl (fun acc e => acc ++ sep ++ e) x

/-- The replacement table `html/template` applies to values interpolated in a
text context (`htmlReplacementTable`). -/
def htmlEscapeChar (c : Char) : List Char :=
  if c = Char.ofNat 0 then "�".data
  else if c = Char.ofNat 34 then "&#34;".data
  else if c = '&' then "&amp;".data
  else if c = Char.ofNat 39 then "&#39;".data
  else if c = '+' then "&#43;".data
  else if c = '<' then "&lt;".data
  else if c = '=' then "&#61;".data
  else if c = '>' then "&gt;".data
  else [c]

/-- HTML-escaping applied by `html/template` to every interpolated value. -/
def htmlEscape (s : String) : String :=
  String.mk (s.data.flatMap htmlEscapeChar)

/-! Generic JSON-ish values (`map[string]interface{}` entries).

JSON numbers (Go `float64`) are carried opaquely — no claim inspects a numeric
value — and nesting below one level is likewise opaque to all the code under
verification, which only ever tests whether a value is a string. -/

/-- Go string values inside decoded JSON documents, as byte sequences (the
masker slices them by byte index). -/
abbrev GoStr := List Nat

/-- Byte sequence of an ASCII Lean string (models Go string ↔ `[]byte` for the
ASCII inputs used in examples). -/
def goBytes (s : String) : GoStr :=
  s.data.map fun c => c.toNat

inductive GoAtom where
  | astr (s : GoStr)
  | anum (n : Int)
  | abool (b : Bool)
  | anull
deriving DecidableEq

/-- A value stored in a decoded `map[string]interface{}`. -/
inductive GoVal where
  | vstr (s : GoStr)
  | vnum (n : Int)
  | vbool (b : Bool)
  | vnull
  | varr (elems : List GoAtom)
  | vobj (fields : List (String × GoAtom))
deriving DecidableEq

/-- A decoded `map[string]interface{}` (Go maps have unique keys). -/
abbrev JsonObj := List (String × GoVal)

/-- Go map read `data[k]`. -/
def mapLookup : JsonObj → String → Option GoVal
  | [], _ => none
  | (k', v) :: rest, k => if k' = k then some v else mapLookup rest k

/-- Go map write `data[k] = v`. -/
def mapUpdate : JsonObj → String → GoVal → JsonObj
  | [], k, v => [(k, v)]
  | (k', v') :: rest, k, v =>
      if k' = k then (k, v) :: rest else (k', v') :: mapUpdate rest k v

/-! The `logger` package data model (`canonical_logger.go` lines 15–54). -/

/-- Severity constants of the `Level` type (`1 << iota`). -/
def Debug : Int := 1
def Info : Int := 2
def Warn : Int := 4
def Error : Int := 8

/-- Record type `CanonicalLog` (the `Duration` field stands for the `time.Duration`
value's `String()` rendering, which is what the template interpolates). -/
structure CanonicalLog where
  Transport : String
  Traffic : String
  Method : String
  Status : Int
  Path : String
  Duration : String
  Message : String
  Level : Int
deriving DecidableEq

structure StackError where
  Kind : String
  Message : String
  Stack : String
deriving DecidableEq

/-- Domain error type `ExceptionError`.  `StackErrors` is `Option (List StackError)` because Go
distinguishes a nil slice (`none`) from an empty non-nil slice (`some []`),
and line 93 of the source tests `cErr.StackErrors != nil`. -/
structure ExceptionError where
  Code : Int
  GlobalMessage : String
  DebugMessage : String
  APIStatusCode : Int
  ErrFields : JsonObj
  OverrideLogLevel : Bool
  Level : String
  StackErrors : Option (List StackError)
deriving DecidableEq

/-- The `err error` argument of `CanonicalLogger`: nil, a non-nil
`*ExceptionError`, a non-nil interface holding a nil `*ExceptionError`
(for which `ok && cErr != nil` fails), or any other error value. -/
inductive GoError where
  | nil
  | exception (e : ExceptionError)
  | exceptionNilPointer
  | generic (msg : String)
deriving DecidableEq

/-! The `logger` package functions (`canonical_logger.go` lines 56–203). -/

/-- Deny list `DenyPatterns` (lines 174–182). -/
def DenyPatterns : List String :=
  ["login", "refresh-token", "verify-otp", "password", "token", "secret", "key"]

/-- Redaction policy `Sanitize` (lines 184–192): lower-case the key and return whether any deny
pattern occurs in it. -/
def Sanitize (logKey : String) : Bool :=
  let logKeyLower := goToLower logKey
  DenyPatterns.any fun denyPattern => goContains logKeyLower denyPattern

/-- Stack extraction `GetStackField` (lines 194–203). -/
def GetStackField (stackErrors : List StackError) : StackError :=
  match stackErrors with
  | e :: _ => e
  | [] =>
    { Kind := "unknown"
      Message := "no stack information available"
      Stack := "" }

/-- Structured `slog` attribute values as they reach the sink. -/
inductive Field where
  | str (key val : String)
  | int (key : String) (val : Int)
  | anyObj (key : String) (obj : JsonObj)
  | anyNull (key : String)
  | group (key : String) (attrs : List Field)

/-- The unmarshal-or-fall-back-to-raw-string pattern of lines 76–81
(request), 116–121 and 125–130 (response): on unmarshal failure the field is
the raw bytes as a string, otherwise the decoded object. -/
def normalizePayload (jsonUnmarshal : String → Option JsonObj)
    (key : String) (payload : String) : Field :=
  match jsonUnmarshal payload with
  | none => Field.str key payload
  | some jsonObj => Field.anyObj key jsonObj

/-- Lines 93–104: the `error` group, emitted only when `cErr.StackErrors` is
non-nil; the first frame's stack text is split on the frame delimiter and
truncated to 6 segments when longer. -/
def exceptionStackFields (cErr : ExceptionError) : List Field :=
  match cErr.StackErrors with
  | none => []
  | some stackErrors =>
    let stackTrace := GetStackField stackErrors
    let stackTraceParts := goSplit stackTrace.Stack "\n\t"
    let stackText :=
      if 6 < stackTraceParts.length then goJoin (stackTraceParts.take 6) "\n\t"
      else stackTrace.Stack
    [Field.group "error"
      [Field.str "kind" stackTrace.Kind,
       Field.str "message" stackTrace.Message,
       Field.str "stack" stackText]]

/-- Lines 105–113: the `response` group for a domain error. -/
def exceptionResponseGroup (cErr : ExceptionError) : Field :=
  Field.group "response"
    [Field.int "status_code" cErr.APIStatusCode,
     Field.anyNull "data",
     Field.group "error"
       [Field.int "code" cErr.Code,
        Field.str "message" cErr.GlobalMessage,
        Field.str "debug_message" cErr.DebugMessage,
        Field.anyObj "details" cErr.ErrFields]]

inductive Severity where
  | debug
  | info
  | warn
  | error
deriving DecidableEq

/-- The switch of lines 160–171: unknown levels fall through to error. -/
def emittedSeverity (level : Int) : Severity :=
  if level = Debug then Severity.debug
  else if level = Info then Severity.info
  else if level = Warn then Severity.warn
  else Severity.error

/-- Executing the compiled template of `CompileCanonicalLogTemplate` (lines
56–63) on a record.  `html/template` HTML-escapes each interpolated value in
this all-text template; the `Status` integer is printed in decimal. -/
def renderCanonicalLogTemplate (cl : CanonicalLog) : String :=
  "[" ++ htmlEscape cl.Transport ++ "][" ++ htmlEscape cl.Traffic ++ "] " ++
  htmlEscape cl.Method ++ " " ++ toString cl.Status ++ " " ++
  htmlEscape cl.Path ++ " " ++ htmlEscape cl.Duration ++ " - " ++
  htmlEscape cl.Message

/-- The one record emitted through the sink per call. -/
structure EmittedRecord where
  severity : Severity
  message : String
  fields : List Field

/-- The assembler `CanonicalLogger` (lines 72–172).  `jsonUnmarshal` models
`encoding/json.Unmarshal` into `map[string]interface{}`; `templateCompiled`
models whether the global `canonicalLogTemplate` is non-nil; `ctx` and the
`slogger` sink are dropped (emission is the returned record). -/
def CanonicalLogger (jsonUnmarshal : String → Option JsonObj)
    (templateCompiled : Bool) (level : Int) (request response : String)
    (err : GoError) (canonicalLog : CanonicalLog) (metadata : List Field) :
    EmittedRecord :=
  let logKey := canonicalLog.Path
  -- lines 76–81
  let reqFields : List Field := [normalizePayload jsonUnmarshal "request" request]
  -- lines 83–86
  let shouldSanitize := Sanitize logKey
  let reqFields : List Field :=
    if shouldSanitize then [Field.str "request" "REDACTED"] else reqFields
  -- lines 89–131: severity override and response fields
  let level : Int := if err = GoError.nil then Info else Error
  let respFields : List Field :=
    match err with
    | GoError.nil => [normalizePayload jsonUnmarshal "response" response]
    | GoError.exception cErr => exceptionStackFields cErr ++ [exceptionResponseGroup cErr]
    | GoError.exceptionNilPointer => [normalizePayload jsonUnmarshal "response" response]
    | GoError.generic _ => [normalizePayload jsonUnmarshal "response" response]
  -- line 114: only the domain-error branch overwrites the message
  let canonicalLog : CanonicalLog :=
    match err with
    | GoError.exception cErr => { canonicalLog with Message := cErr.DebugMessage }
    | _ => canonicalLog
  -- lines 133–135
  let respFields : List Field :=
    if shouldSanitize then [Field.str "response" "REDACTED"] else respFields
  -- lines 137–141
  let mdFields : List Field :=
    [Field.str "logger_name" "canonical", Field.group "md" metadata]
  -- lines 143–155
  let logMsg : String :=
    if templateCompiled then renderCanonicalLogTemplate canonicalLog
    else "failed to get canonical log template"
  -- lines 157–171
  let fields := reqFields ++ respFields ++ mdFields
  { severity := emittedSeverity level, message := logMsg, fields := fields }

/-! The `CoolEncoder` zap sink wiring (`CoolEncoder.EncodeEntry`). -/

/-- The `zapcore.FieldType` tag of a field; the encoder only ever compares it
against `zapcore.Int64Type`, all other types are kept unexamined. -/
inductive ZapFieldType where
  | int64Type
  | stringType
  | boolType
  | float64Type
  | otherType (code : Nat)
deriving DecidableEq

/-- A `zapcore.Field` (payload slots beyond the key and the type tag are
irrelevant to the filter and carried for fidelity). -/
structure ZapField where
  key : String
  fieldType : ZapFieldType
  integer : Int
  str : String
deriving DecidableEq

/-- A `zapcore.Entry` (passed through to the wrapped encoder untouched). -/
structure ZapEntry where
  level : Int
  message : String
deriving DecidableEq

/-- Encoder method `CoolEncoder.EncodeEntry`: drop every field whose key is `"skip"` or whose
type is `Int64Type`, hand the entry and the remaining fields to the wrapped
encoder (modelled by returning the pair it receives). -/
def CoolEncoderEncodeEntry (entry : ZapEntry) (fields : List ZapField) :
    ZapEntry × List ZapField :=
  let filtered := fields.foldl
    (fun acc field =>
      if field.key == "skip" || field.fieldType == ZapFieldType.int64Type then acc
      else acc ++ [field])
    []
  (entry, filtered)

/-! The `grpcclient` package sensitive-field masker
(`maskSensitiveDataUsingStructTag`). -/

/-- One declared field of the struct type being reflected over: its `json`
tag (`""` when absent) and its `sensitive` tag (`none` when absent). -/
structure StructField where
  jsonTag : String
  sensitiveTag : Option String
deriving DecidableEq

/-- The json key of a struct field: the tag up to the first comma
(`strings.Index(jsonTag, ",")`). -/
def jsonFieldNameOf (jsonTag : String) : String :=
  String.mk (jsonTag.data.takeWhile fun c => c ≠ ',')

/-- The fixed mask `"*****"` as bytes. -/
def fixedMask : GoStr := goBytes "*****"

/-- The loop body of `maskSensitiveDataUsingStructTag` for one struct field:
if the field is marked `sensitive:"true"` and the map holds a string at its
json key, replace it with first-byte + mask + last-byte (length ≥ 2) or the
string + mask (length 1); otherwise leave the map alone. -/
def maskStep (data : JsonObj) (field : StructField) : JsonObj :=
  if field.sensitiveTag = some "true" then
    let jsonFieldName := jsonFieldNameOf field.jsonTag
    match mapLookup data jsonFieldName with
    | some (GoVal.vstr strValue) =>
        if 2 ≤ strValue.length then
          mapUpdate data jsonFieldName
            (GoVal.vstr (strValue.take 1 ++ fixedMask ++ strValue.drop (strValue.length - 1)))
        else if strValue.length = 1 then
          mapUpdate data jsonFieldName (GoVal.vstr (strValue ++ fixedMask))
        else data
    | some _ => data
    | none => data
  else data

/-- The masker `maskSensitiveDataUsingStructTag`: fold the loop body over the struct's
declared fields in order, mutating the decoded map. -/
def maskSensitiveDataUsingStructTag (fields : List StructField) (data : JsonObj) :
    JsonObj :=
  fields.foldl maskStep data

/-! Shared helper definitions for concrete witnesses. -/

/-- An unmarshaller that rejects every payload (concrete stand-in for
`encoding/json.Unmarshal` on non-document inputs). -/
def trivialUnmarshal : String → Option JsonObj := fun _ => none

/-- An unmarshaller that accepts exactly the payload `"\x7b\x7d"` (the empty
JSON document) and rejects everything else. -/
def emptyObjUnmarshal : String → Option JsonObj :=
  fun s => if s = "\x7b\x7d" then some [] else none

/-! Helper lemmas. -/

/-- Containment check `goContainsChars` decides substring containment. -/
theorem goContainsChars_iff (s sub : List Char) :
    goContainsChars s sub = true ↔ sub <:+: s := by
  induction s with
  | nil => simp [goContainsChars, List.isPrefixOf_iff_prefix]
  | cons c rest ih =>
      simp [goContainsChars, List.isPrefixOf_iff_prefix, ih, List.infix_cons_iff]

theorem mk_append (a b : List Char) :
    String.mk a ++ String.mk b = String.mk (a ++ b) := rfl

theorem goJoin_foldl_mk (sep : String) (xs : List (List Char)) (x : List Char) :
    (xs.map String.mk).foldl (fun acc e => acc ++ sep ++ e) (String.mk x)
      = String.mk (xs.foldl (fun acc e => acc ++ sep.data ++ e) x) := by
  induction xs generalizing x with
  | nil => rfl
  | cons y ys ih =>
      simp only [List.map_cons, List.foldl_cons]
      have hx : String.mk x ++ sep ++ String.mk y = String.mk (x ++ sep.data ++ y) := by
        cases sep
        rfl
      rw [hx]
      exact ih (x ++ sep.data ++ y)

/-- Joining mapped strings is the string of the character-level join. -/
theorem goJoin_map_mk (sep : String) (l : List (List Char)) :
    goJoin (l.map String.mk) sep = String.mk (goJoinChars sep.data l) := by
  cases l with
  | nil => rfl
  | cons x xs =>
      simp only [List.map_cons, goJoin, goJoinChars]
      exact goJoin_foldl_mk sep xs x

/-- The split worker never returns an empty list of segments. -/
theorem goSplitCharsAux_ne_nil (sep : List Char) (fuel : Nat) (s : List Char) :
    goSplitCharsAux sep fuel s ≠ [] := by
  match fuel, s with
  | _, [] => simp [goSplitCharsAux]
  | 0, c :: rest => simp [goSplitCharsAux]
  | fuel + 1, c :: rest =>
      simp only [goSplitCharsAux]
      split
      · simp
      · split <;> simp

theorem foldl_join_prepend (sep : List Char) (t : List (List Char)) (a b : List Char) :
    t.foldl (fun acc e => acc ++ sep ++ e) (a ++ b)
      = a ++ t.foldl (fun acc e => acc ++ sep ++ e) b := by
  induction t generalizing b with
  | nil => rfl
  | cons y ys ih =>
      simp only [List.foldl_cons]
      rw [show a ++ b ++ sep ++ y = a ++ (b ++ sep ++ y) by simp [List.append_assoc]]
      exact ih (b ++ sep ++ y)

/-- Joining the split of a list with the same separator restores the list. -/
theorem goJoinChars_goSplitCharsAux (sep : List Char) (fuel : Nat) (s : List Char)
    (h : s.length ≤ fuel) :
    goJoinChars sep (goSplitCharsAux sep fuel s) = s := by
  induction fuel generalizing s with
  | zero =>
      cases s with
      | nil => rfl
      | cons c rest => simp at h
  | succ fuel ih =>
      cases s with
      | nil => rfl
      | cons c rest =>
          simp only [goSplitCharsAux]
          by_cases hp : sep ≠ [] ∧ sep.isPrefixOf (c :: rest)
          · rw [if_pos hp]
            obtain ⟨t, ht⟩ := List.isPrefixOf_iff_prefix.mp hp.2
            have hdrop : (c :: rest).drop sep.length = t := by
              rw [← ht, List.drop_left]
            have hlent : t.length ≤ fuel := by
              have h1 : 1 ≤ sep.length := by
                cases hsep : sep with
                | nil => exact absurd hsep hp.1
                | cons a b => simp
              have h2 := congrArg List.length ht
              simp only [List.length_append, List.length_cons] at h2
              simp only [List.length_cons] at h
              omega
            rw [hdrop]
            obtain ⟨hd, tl, he⟩ :=
              List.exists_cons_of_ne_nil (goSplitCharsAux_ne_nil sep fuel t)
            rw [he]
            calc goJoinChars sep ([] :: hd :: tl)
                = tl.foldl (fun acc e => acc ++ sep ++ e) ([] ++ sep ++ hd) := by
                  simp [goJoinChars]
              _ = tl.foldl (fun acc e => acc ++ sep ++ e) (sep ++ hd) := by simp
              _ = sep ++ tl.foldl (fun acc e => acc ++ sep ++ e) hd :=
                  foldl_join_prepend sep tl sep hd
              _ = sep ++ goJoinChars sep (hd :: tl) := by simp [goJoinChars]
              _ = sep ++ t := by rw [← he, ih t hlent]
              _ = c :: rest := ht
          · rw [if_neg hp]
            obtain ⟨hd, tl, he⟩ :=
              List.exists_cons_of_ne_nil (goSplitCharsAux_ne_nil sep fuel rest)
            have hrest : rest.length ≤ fuel := by
              simp only [List.length_cons] at h
              omega
            rw [he]
            show goJoinChars sep ((c :: hd) :: tl) = c :: rest
            calc goJoinChars sep ((c :: hd) :: tl)
                = tl.foldl (fun acc e => acc ++ sep ++ e) ([c] ++ hd) := by
                  simp [goJoinChars]
              _ = [c] ++ tl.foldl (fun acc e => acc ++ sep ++ e) hd :=
                  foldl_join_prepend sep tl [c] hd
              _ = c :: goJoinChars sep (hd :: tl) := by simp [goJoinChars]
              _ = c :: rest := by rw [← he, ih rest hrest]

/-- Go invariant `strings.Join(strings.Split(s, sep), sep) == s`. -/
theorem goJoin_goSplit (s sep : String) : goJoin (goSplit s sep) sep = s := by
  unfold goSplit
  rw [goJoin_map_mk,
    goJoinChars_goSplitCharsAux sep.data s.data.length s.data (le_refl _)]

/-- Folding the keep-unless-skipped loop of `CoolEncoder.EncodeEntry` is
filtering. -/
theorem foldl_if_skip_eq_filter {α : Type} (p : α → Bool) (l acc : List α) :
    l.foldl (fun acc x => if p x then acc else acc ++ [x]) acc
      = acc ++ l.filter (fun x => !p x) := by
  induction l generalizing acc with
  | nil => simp
  | cons x xs ih =>
      by_cases h : p x = true
      · simp [h, ih]
      · simp only [Bool.not_eq_true] at h
        simp [h, ih]

/-! Claims. -/

/-- Claim C6: for every route key, `Sanitize` returns true iff the lower-cased
key contains one of the deny-list substrings (login, refresh-token,
verify-otp, password, token, secret, key); `"/api/auth/LOGIN"` yields true and
`"/health"` yields false. -/
theorem claim_C6 :
    (∀ logKey : String, Sanitize logKey = true ↔
      ∃ denyPattern ∈ DenyPatterns, denyPattern.data <:+: (goToLower logKey).data)
    ∧ Sanitize "/api/auth/LOGIN" = true ∧ Sanitize "/health" = false := by
  refine ⟨fun logKey => ?_, by decide, by decide⟩
  simp [Sanitize, DenyPatterns, goContains, goContainsChars_iff]

/-- Witness for C6 at concrete route keys. -/
theorem claim_C6_witness :
    Sanitize "/api/auth/LOGIN" = true ∧ Sanitize "/health" = false := by
  constructor
  · exact (claim_C6.1 "/api/auth/LOGIN").mpr ⟨"login", by decide, by decide⟩
  · exact claim_C6.2.2

/-- Claim C7: payload normalization is total: a payload the unmarshaller
decodes as a document yields the decoded structure, any other payload yields
the raw bytes as an opaque string field, and (on a non-redacted path) that
normalized field is exactly the request field the logger emits. -/
theorem claim_C7 (jsonUnmarshal : String → Option JsonObj) (key payload : String) :
    (∀ jsonObj, jsonUnmarshal payload = some jsonObj →
        normalizePayload jsonUnmarshal key payload = Field.anyObj key jsonObj)
    ∧ (jsonUnmarshal payload = none →
        normalizePayload jsonUnmarshal key payload = Field.str key payload)
    ∧ (∀ templateCompiled level response err cl md,
        Sanitize cl.Path = false →
        (CanonicalLogger jsonUnmarshal templateCompiled level payload response
            err cl md).fields.head?
          = some (normalizePayload jsonUnmarshal "request" payload)) := by
  refine ⟨fun jsonObj h => ?_, fun h => ?_, fun tc lvl resp err cl md h => ?_⟩
  · simp [normalizePayload, h]
  · simp [normalizePayload, h]
  · cases err <;> simp [CanonicalLogger, h]

/-- Witness for C7: `"invalid json"` falls back to the opaque string field,
the empty document decodes to the empty structure. -/
theorem claim_C7_witness :
    normalizePayload trivialUnmarshal "request" "invalid json"
        = Field.str "request" "invalid json"
    ∧ normalizePayload emptyObjUnmarshal "request" "\x7b\x7d"
        = Field.anyObj "request" [] := by
  constructor
  · exact (claim_C7 trivialUnmarshal "request" "invalid json").2.1 rfl
  · exact (claim_C7 emptyObjUnmarshal "request" "\x7b\x7d").1 [] (by decide)

/-- Claim C9: `CoolEncoder.EncodeEntry` silently drops every field keyed
`"skip"` and every `Int64`-typed field, passes all remaining fields through in
their original order (a filter), and hands the entry itself on unchanged. -/
theorem claim_C9 (entry : ZapEntry) (fields : List ZapField) :
    (CoolEncoderEncodeEntry entry fields).2
      = fields.filter
          (fun field => !(field.key == "skip" || field.fieldType == ZapFieldType.int64Type))
    ∧ (CoolEncoderEncodeEntry entry fields).1 = entry := by
  refine ⟨?_, rfl⟩
  simpa [CoolEncoderEncodeEntry] using
    foldl_if_skip_eq_filter
      (fun field => field.key == "skip" || field.fieldType == ZapFieldType.int64Type)
      fields []

/-- Claim C1: the emitted severity depends only on the error argument — the
caller-supplied level hint is ignored: any non-nil error is emitted at Error,
a nil error at Info, and in the nil case the rendered message comes from the
caller's record untouched (the assembler does not overwrite it). -/
theorem claim_C1 (jsonUnmarshal : String → Option JsonObj) (templateCompiled : Bool)
    (level : Int) (request response : String) (err : GoError)
    (canonicalLog : CanonicalLog) (metadata : List Field) :
    ((CanonicalLogger jsonUnmarshal templateCompiled level request response
        err canonicalLog metadata).severity
      = if err = GoError.nil then Severity.info else Severity.error)
    ∧ (err = GoError.nil →
        (CanonicalLogger jsonUnmarshal templateCompiled level request response
            err canonicalLog metadata).message
          = if templateCompiled then renderCanonicalLogTemplate canonicalLog
            else "failed to get canonical log template") := by
  constructor
  · cases err <;>
      simp [CanonicalLogger, emittedSeverity, Debug, Info, Warn, Error]
  · intro h
    subst h
    simp [CanonicalLogger]

/-- Witness for C1 at concrete inputs: a nil error is emitted at Info with the
caller's message rendered untouched even though the caller hinted Warn, and a
non-nil opaque error is emitted at Error even though the caller hinted Debug. -/
theorem claim_C1_witness :
    (CanonicalLogger trivialUnmarshal true Warn "ping" "pong" GoError.nil
        ⟨"HTTP", "incoming", "GET", 200, "/api/users", "150ms", "Success", 0⟩
        []).severity = Severity.info
    ∧ (CanonicalLogger trivialUnmarshal true Warn "ping" "pong" GoError.nil
        ⟨"HTTP", "incoming", "GET", 200, "/api/users", "150ms", "Success", 0⟩
        []).message = "[HTTP][incoming] GET 200 /api/users 150ms - Success"
    ∧ (CanonicalLogger trivialUnmarshal true Debug "ping" "pong"
        (GoError.generic "boom")
        ⟨"HTTP", "incoming", "GET", 200, "/api/users", "150ms", "Success", 0⟩
        []).severity = Severity.error := by
  refine ⟨?_, ?_, ?_⟩
  · have h := (claim_C1 trivialUnmarshal true Warn "ping" "pong" GoError.nil
      ⟨"HTTP", "incoming", "GET", 200, "/api/users", "150ms", "Success", 0⟩ []).1
    simpa using h
  · have h := (claim_C1 trivialUnmarshal true Warn "ping" "pong" GoError.nil
      ⟨"HTTP", "incoming", "GET", 200, "/api/users", "150ms", "Success", 0⟩ []).2 rfl
    rw [h]
    decide
  · have h := (claim_C1 trivialUnmarshal true Debug "ping" "pong"
      (GoError.generic "boom")
      ⟨"HTTP", "incoming", "GET", 200, "/api/users", "150ms", "Success", 0⟩ []).1
    simpa using h

/-- Claim C2: whenever `Sanitize` accepts the record's path, the emitted field
list carries exactly one request field and one response field, each the
literal sentinel `"REDACTED"`, for every request payload, response payload and
error — overriding whatever the normalizer or error classifier produced. -/
theorem claim_C2 (jsonUnmarshal : String → Option JsonObj) (templateCompiled : Bool)
    (level : Int) (request response : String) (err : GoError)
    (canonicalLog : CanonicalLog) (metadata : List Field)
    (h : Sanitize canonicalLog.Path = true) :
    (CanonicalLogger jsonUnmarshal templateCompiled level request response
        err canonicalLog metadata).fields
      = [Field.str "request" "REDACTED", Field.str "response" "REDACTED",
         Field.str "logger_name" "canonical", Field.group "md" metadata] := by
  cases err <;> simp [CanonicalLogger, h]

/-- Witness for C2: a login route with decodable payloads and a domain error
still emits only the two sentinels (plus the fixed metadata fields). -/
theorem claim_C2_witness :
    Sanitize "/api/auth/login" = true
    ∧ (CanonicalLogger emptyObjUnmarshal true Info "\x7b\x7d" "\x7b\x7d"
        (GoError.exception
          ⟨500, "Internal Server Error", "db down", 500, [], false, "",
            some [⟨"RuntimeError", "boom", "a\n\tb"⟩]⟩)
        ⟨"HTTP", "incoming", "POST", 200, "/api/auth/login", "200ms", "ok", 0⟩
        []).fields
      = [Field.str "request" "REDACTED", Field.str "response" "REDACTED",
         Field.str "logger_name" "canonical", Field.group "md" []] :=
  ⟨by decide,
   claim_C2 emptyObjUnmarshal true Info "\x7b\x7d" "\x7b\x7d"
     (GoError.exception
       ⟨500, "Internal Server Error", "db down", 500, [], false, "",
         some [⟨"RuntimeError", "boom", "a\n\tb"⟩]⟩)
     ⟨"HTTP", "incoming", "POST", 200, "/api/auth/login", "200ms", "ok", 0⟩
     [] (by decide)⟩

/-- Claim C3: for every domain error with at least one stack frame (on a
non-redacted path), the logger renders only the first frame, and the rendered
stack is exactly the first at-most-6 delimiter-separated segments of its
stack text, rejoined with the same delimiter — truncation when the split has
more than 6 segments, the unchanged text otherwise (the rejoined form then
equals the original text, by the join-split identity). -/
theorem claim_C3 (jsonUnmarshal : String → Option JsonObj) (templateCompiled : Bool)
    (level : Int) (request response : String) (cErr : ExceptionError)
    (canonicalLog : CanonicalLog) (metadata : List Field)
    (firstFrame : StackError) (rest : List StackError) (segs : List String)
    (hpath : Sanitize canonicalLog.Path = false)
    (hstack : cErr.StackErrors = some (firstFrame :: rest))
    (hsegs : goSplit firstFrame.Stack "\n\t" = segs) :
    (CanonicalLogger jsonUnmarshal templateCompiled level request response
        (GoError.exception cErr) canonicalLog metadata).fields
      = [normalizePayload jsonUnmarshal "request" request,
         Field.group "error"
           [Field.str "kind" firstFrame.Kind,
            Field.str "message" firstFrame.Message,
            Field.str "stack" (goJoin (segs.take 6) "\n\t")],
         exceptionResponseGroup cErr,
         Field.str "logger_name" "canonical", Field.group "md" metadata] := by
  by_cases hlen : 6 < segs.length
  · simp [CanonicalLogger, hpath, exceptionStackFields, hstack, GetStackField,
      hsegs, hlen]
  · have htake : segs.take 6 = segs := List.take_of_length_le (by omega)
    have hjoin : goJoin (segs.take 6) "\n\t" = firstFrame.Stack := by
      rw [htake, ← hsegs, goJoin_goSplit]
    simp [CanonicalLogger, hpath, exceptionStackFields, hstack, GetStackField,
      hsegs, hlen, hjoin]

/-- Witness for C3: a stack text of 10 segments is rendered as exactly the
first 6, rejoined with the delimiter that split them; a two-frame error whose
first frame has only 2 segments renders only that first frame, with its stack
text unchanged. -/
theorem claim_C3_witness :
    (CanonicalLogger trivialUnmarshal true Error "req" "resp"
        (GoError.exception
          ⟨500, "Internal Error", "stack test", 500, [], false, "",
            some [⟨"RuntimeError", "long stack",
              "L1\n\tL2\n\tL3\n\tL4\n\tL5\n\tL6\n\tL7\n\tL8\n\tL9\n\tL10"⟩]⟩)
        ⟨"HTTP", "incoming", "GET", 500, "/api/test", "1ms", "m", 0⟩ []).fields
      = [Field.str "request" "req",
         Field.group "error"
           [Field.str "kind" "RuntimeError",
            Field.str "message" "long stack",
            Field.str "stack" "L1\n\tL2\n\tL3\n\tL4\n\tL5\n\tL6"],
         exceptionResponseGroup
           ⟨500, "Internal Error", "stack test", 500, [], false, "",
             some [⟨"RuntimeError", "long stack",
               "L1\n\tL2\n\tL3\n\tL4\n\tL5\n\tL6\n\tL7\n\tL8\n\tL9\n\tL10"⟩]⟩,
         Field.str "logger_name" "canonical", Field.group "md" []]
    ∧ (CanonicalLogger trivialUnmarshal true Error "req" "resp"
        (GoError.exception
          ⟨500, "Internal Error", "short stack", 500, [], false, "",
            some [⟨"E1", "first frame", "A\n\tB"⟩,
                  ⟨"E2", "second frame", "C\n\tD"⟩]⟩)
        ⟨"HTTP", "incoming", "GET", 500, "/api/test", "1ms", "m", 0⟩ []).fields
      = [Field.str "request" "req",
         Field.group "error"
           [Field.str "kind" "E1",
            Field.str "message" "first frame",
            Field.str "stack" "A\n\tB"],
         exceptionResponseGroup
           ⟨500, "Internal Error", "short stack", 500, [], false, "",
             some [⟨"E1", "first frame", "A\n\tB"⟩,
                   ⟨"E2", "second frame", "C\n\tD"⟩]⟩,
         Field.str "logger_name" "canonical", Field.group "md" []] := by
  constructor
  · rw [claim_C3 trivialUnmarshal true Error "req" "resp"
      ⟨500, "Internal Error", "stack test", 500, [], false, "",
        some [⟨"RuntimeError", "long stack",
          "L1\n\tL2\n\tL3\n\tL4\n\tL5\n\tL6\n\tL7\n\tL8\n\tL9\n\tL10"⟩]⟩
      ⟨"HTTP", "incoming", "GET", 500, "/api/test", "1ms", "m", 0⟩ []
      ⟨"RuntimeError", "long stack",
        "L1\n\tL2\n\tL3\n\tL4\n\tL5\n\tL6\n\tL7\n\tL8\n\tL9\n\tL10"⟩ []
      ["L1", "L2", "L3", "L4", "L5", "L6", "L7", "L8", "L9", "L10"]
      (by decide) rfl (by decide)]
    rfl
  · rw [claim_C3 trivialUnmarshal true Error "req" "resp"
      ⟨500, "Internal Error", "short stack", 500, [], false, "",
        some [⟨"E1", "first frame", "A\n\tB"⟩,
              ⟨"E2", "second frame", "C\n\tD"⟩]⟩
      ⟨"HTTP", "incoming", "GET", 500, "/api/test", "1ms", "m", 0⟩ []
      ⟨"E1", "first frame", "A\n\tB"⟩ [⟨"E2", "second frame", "C\n\tD"⟩]
      ["A", "B"]
      (by decide) rfl (by decide)]
    rfl

/-- Counterexample to C4 as stated: with an empty but non-nil `StackErrors`
list the stack group is NOT skipped — the emitted fields contain an `error`
group filled with the default extraction (kind `"unknown"`, message
`"no stack information available"`, empty stack), because line 93 tests
`cErr.StackErrors != nil`, which an empty non-nil slice passes. -/
theorem claim_C4_counterexample :
    Field.group "error"
        [Field.str "kind" "unknown",
         Field.str "message" "no stack information available",
         Field.str "stack" ""]
      ∈ (CanonicalLogger trivialUnmarshal true Info "a" "b"
          (GoError.exception ⟨500, "ISE", "boom", 500, [], false, "", some []⟩)
          ⟨"HTTP", "incoming", "GET", 500, "/api/test", "1ms", "m", 0⟩ []).fields := by
  show Field.group "error"
      [Field.str "kind" "unknown",
       Field.str "message" "no stack information available",
       Field.str "stack" ""]
    ∈ [Field.str "request" "a",
       Field.group "error"
         [Field.str "kind" "unknown",
          Field.str "message" "no stack information available",
          Field.str "stack" ""],
       exceptionResponseGroup ⟨500, "ISE", "boom", 500, [], false, "", some []⟩,
       Field.str "logger_name" "canonical", Field.group "md" []]
  simp

/-- Claim C4 (amended): for a domain error whose `StackErrors` slice is nil
(on a non-redacted path) the stack group is skipped while the response group —
API status, null data placeholder, nested error fields — is still emitted;
an empty but non-nil slice instead emits the stack group with the default
extraction (see the counterexample). -/
theorem claim_C4 (jsonUnmarshal : String → Option JsonObj) (templateCompiled : Bool)
    (level : Int) (request response : String) (cErr : ExceptionError)
    (canonicalLog : CanonicalLog) (metadata : List Field)
    (hpath : Sanitize canonicalLog.Path = false)
    (hstack : cErr.StackErrors = none) :
    (CanonicalLogger jsonUnmarshal templateCompiled level request response
        (GoError.exception cErr) canonicalLog metadata).fields
      = [normalizePayload jsonUnmarshal "request" request,
         exceptionResponseGroup cErr,
         Field.str "logger_name" "canonical", Field.group "md" metadata] := by
  simp [CanonicalLogger, hpath, exceptionStackFields, hstack]

/-- Witness for C4 (amended) at a concrete nil-slice domain error. -/
theorem claim_C4_witness :
    (CanonicalLogger trivialUnmarshal true Info "a" "b"
        (GoError.exception ⟨404, "Not Found", "missing", 404, [], false, "", none⟩)
        ⟨"HTTP", "incoming", "GET", 404, "/api/test", "1ms", "m", 0⟩ []).fields
      = [Field.str "request" "a",
         exceptionResponseGroup ⟨404, "Not Found", "missing", 404, [], false, "", none⟩,
         Field.str "logger_name" "canonical", Field.group "md" []] := by
  rw [claim_C4 trivialUnmarshal true Info "a" "b"
    ⟨404, "Not Found", "missing", 404, [], false, "", none⟩
    ⟨"HTTP", "incoming", "GET", 404, "/api/test", "1ms", "m", 0⟩ []
    (by decide) rfl]
  rfl

/-- Characters that `html/template` rewrites in a text context. -/
def isHtmlSpecialChar (c : Char) : Bool :=
  c == Char.ofNat 0 || c == Char.ofNat 34 || c == Char.ofNat 39 ||
  c == '&' || c == '+' || c == '<' || c == '=' || c == '>'

/-- A string `html/template` interpolates verbatim. -/
def noHtmlSpecialChars (s : String) : Bool :=
  s.data.all fun c => !isHtmlSpecialChar c

theorem htmlEscapeChar_of_not_special (c : Char) (h : isHtmlSpecialChar c = false) :
    htmlEscapeChar c = [c] := by
  simp only [isHtmlSpecialChar, Bool.or_eq_false_iff, beq_eq_false_iff_ne, ne_eq] at h
  obtain ⟨⟨⟨⟨⟨⟨⟨h0, h34⟩, h39⟩, hamp⟩, hplus⟩, hlt⟩, heqs⟩, hgt⟩ := h
  simp [htmlEscapeChar, h0, h34, h39, hamp, hplus, hlt, heqs, hgt]

theorem flatMap_escape_eq (l : List Char) (h : ∀ c ∈ l, isHtmlSpecialChar c = false) :
    l.flatMap htmlEscapeChar = l := by
  induction l with
  | nil => simp
  | cons c cs ih =>
      simp [htmlEscapeChar_of_not_special c (h c (by simp)),
        ih fun x hx => h x (List.mem_cons_of_mem _ hx)]

theorem htmlEscape_eq_self (s : String) (h : noHtmlSpecialChars s = true) :
    htmlEscape s = s := by
  cases s with
  | mk data =>
      simp only [noHtmlSpecialChars, List.all_eq_true, Bool.not_eq_true'] at h
      simp only [htmlEscape]
      exact congrArg String.mk (flatMap_escape_eq data h)

/-- Counterexample to C5 as stated: the compiled template lives in
`html/template`, which HTML-escapes interpolated values, so a record's fields
are not substituted verbatim — a message `"a<b"` renders as `"a&lt;b"`, and
even the bare arithmetic message `"1+1=2"` renders as `"1&#43;1&#61;2"`. -/
theorem claim_C5_counterexample :
    renderCanonicalLogTemplate
        ⟨"HTTP", "incoming", "GET", 200, "/api/users", "150ms", "a<b", 0⟩
      ≠ "[HTTP][incoming] GET 200 /api/users 150ms - a<b"
    ∧ renderCanonicalLogTemplate
        ⟨"HTTP", "incoming", "GET", 200, "/api/users", "150ms", "a<b", 0⟩
      = "[HTTP][incoming] GET 200 /api/users 150ms - a&lt;b"
    ∧ renderCanonicalLogTemplate
        ⟨"HTTP", "incoming", "GET", 200, "/api/users", "150ms", "1+1=2", 0⟩
      ≠ "[HTTP][incoming] GET 200 /api/users 150ms - 1+1=2"
    ∧ renderCanonicalLogTemplate
        ⟨"HTTP", "incoming", "GET", 200, "/api/users", "150ms", "1+1=2", 0⟩
      = "[HTTP][incoming] GET 200 /api/users 150ms - 1&#43;1&#61;2" := by
  refine ⟨by decide, by decide, by decide, by decide⟩

/-- Claim C5 (amended): rendering the canonical template yields the fixed
shape with the record's current field values substituted HTML-escaped; for
field values free of the text-context HTML-special characters (NUL, double
quote, single quote, ampersand, plus, less-than, equals, greater-than) the
substitution is verbatim. -/
theorem claim_C5 (cl : CanonicalLog)
    (h1 : noHtmlSpecialChars cl.Transport = true)
    (h2 : noHtmlSpecialChars cl.Traffic = true)
    (h3 : noHtmlSpecialChars cl.Method = true)
    (h4 : noHtmlSpecialChars cl.Path = true)
    (h5 : noHtmlSpecialChars cl.Duration = true)
    (h6 : noHtmlSpecialChars cl.Message = true) :
    renderCanonicalLogTemplate cl
      = "[" ++ cl.Transport ++ "][" ++ cl.Traffic ++ "] " ++ cl.Method ++ " "
        ++ toString cl.Status ++ " " ++ cl.Path ++ " " ++ cl.Duration ++ " - "
        ++ cl.Message := by
  simp [renderCanonicalLogTemplate, htmlEscape_eq_self _ h1,
    htmlEscape_eq_self _ h2, htmlEscape_eq_self _ h3, htmlEscape_eq_self _ h4,
    htmlEscape_eq_self _ h5, htmlEscape_eq_self _ h6]

/-- Witness for C5 (amended): the concrete record of the claim renders
exactly the string the claim names. -/
theorem claim_C5_witness :
    renderCanonicalLogTemplate
        ⟨"HTTP", "incoming", "GET", 200, "/api/users", "150ms", "Success", 0⟩
      = "[HTTP][incoming] GET 200 /api/users 150ms - Success" := by
  rw [claim_C5 ⟨"HTTP", "incoming", "GET", 200, "/api/users", "150ms", "Success", 0⟩
    (by decide) (by decide) (by decide) (by decide) (by decide) (by decide)]
  decide

/-! Association-list (Go map) lemmas for the masker. -/

theorem mapLookup_mapUpdate_self (m : JsonObj) (k : String) (v : GoVal) :
    mapLookup (mapUpdate m k v) k = some v := by
  induction m with
  | nil => simp [mapUpdate, mapLookup]
  | cons p rest ih =>
      obtain ⟨k₀, v₀⟩ := p
      by_cases h : k₀ = k
      · simp [mapUpdate, h, mapLookup]
      · simp [mapUpdate, h, mapLookup, ih]

theorem mapLookup_mapUpdate_ne (m : JsonObj) (k k' : String) (v : GoVal)
    (h : k ≠ k') :
    mapLookup (mapUpdate m k v) k' = mapLookup m k' := by
  induction m with
  | nil => simp [mapUpdate, mapLookup, h]
  | cons p rest ih =>
      obtain ⟨k₀, v₀⟩ := p
      by_cases h0 : k₀ = k
      · subst h0
        simp [mapUpdate, mapLookup, h, ih]
      · simp [mapUpdate, h0, mapLookup, ih]

/-- A masking step never changes any key other than the struct field's json
key. -/
theorem maskStep_lookup_ne (d : JsonObj) (f : StructField) (k : String)
    (h : jsonFieldNameOf f.jsonTag ≠ k) :
    mapLookup (maskStep d f) k = mapLookup d k := by
  simp only [maskStep]
  by_cases hs : f.sensitiveTag = some "true"
  · rw [if_pos hs]
    cases hv : mapLookup d (jsonFieldNameOf f.jsonTag) with
    | none => rfl
    | some v =>
        cases v with
        | vstr s =>
            by_cases h2 : 2 ≤ s.length
            · simp only [h2, if_true]
              exact mapLookup_mapUpdate_ne d _ k _ h
            · by_cases h1 : s.length = 1
              · simp only [h2, if_false, h1, if_true]
                exact mapLookup_mapUpdate_ne d _ k _ h
              · simp [h2, h1]
        | vnum n => rfl
        | vbool b => rfl
        | vnull => rfl
        | varr elems => rfl
        | vobj fs => rfl
  · rw [if_neg hs]

/-- A masking step for a field not marked `sensitive:"true"` is a no-op. -/
theorem maskStep_nonsensitive (d : JsonObj) (f : StructField)
    (h : ¬f.sensitiveTag = some "true") :
    maskStep d f = d := by
  simp [maskStep, h]

/-- A masking step on a string value rewrites it to the masked form. -/
theorem maskStep_lookup_self (d : JsonObj) (f : StructField) (s : GoStr)
    (hs : f.sensitiveTag = some "true")
    (hv : mapLookup d (jsonFieldNameOf f.jsonTag) = some (GoVal.vstr s)) :
    mapLookup (maskStep d f) (jsonFieldNameOf f.jsonTag)
      = some (GoVal.vstr
          (if 2 ≤ s.length then s.take 1 ++ fixedMask ++ s.drop (s.length - 1)
           else if s.length = 1 then s ++ fixedMask
           else s)) := by
  simp only [maskStep, hs, if_true, hv]
  by_cases h2 : 2 ≤ s.length
  · simp only [h2, if_true]
    exact mapLookup_mapUpdate_self d _ _
  · by_cases h1 : s.length = 1
    · simp only [h2, if_false, h1, if_true]
      exact mapLookup_mapUpdate_self d _ _
    · simp [h2, h1, hv]

/-- The whole pass leaves every key untouched that no sensitive field
targets. -/
theorem mask_lookup_of_not_touched (fields : List StructField) (d : JsonObj)
    (k : String)
    (h : ∀ g ∈ fields, g.sensitiveTag = some "true" → jsonFieldNameOf g.jsonTag ≠ k) :
    mapLookup (maskSensitiveDataUsingStructTag fields d) k = mapLookup d k := by
  induction fields generalizing d with
  | nil => rfl
  | cons g gs ih =>
      have hstep : mapLookup (maskStep d g) k = mapLookup d k := by
        by_cases hsens : g.sensitiveTag = some "true"
        · exact maskStep_lookup_ne d g k (h g (by simp) hsens)
        · rw [maskStep_nonsensitive d g hsens]
      calc mapLookup (maskSensitiveDataUsingStructTag (g :: gs) d) k
          = mapLookup (maskSensitiveDataUsingStructTag gs (maskStep d g)) k := rfl
        _ = mapLookup (maskStep d g) k :=
            ih (maskStep d g) fun x hx hsx => h x (List.mem_cons_of_mem _ hx) hsx
        _ = mapLookup d k := hstep

/-- Claim C8: a field marked `sensitive:"true"` (and uniquely owning its json
key among the struct's fields) whose map value is a string is masked to
first-byte + `"*****"` + last-byte when its length is at least 2, to the
string + `"*****"` at length 1, and left unchanged when empty; keys no
sensitive field targets are left unchanged. -/
theorem claim_C8 :
    (∀ (l₁ l₂ : List StructField) (field : StructField) (data : JsonObj) (s : GoStr),
      field.sensitiveTag = some "true" →
      (∀ g ∈ l₁, jsonFieldNameOf g.jsonTag ≠ jsonFieldNameOf field.jsonTag) →
      (∀ g ∈ l₂, jsonFieldNameOf g.jsonTag ≠ jsonFieldNameOf field.jsonTag) →
      mapLookup data (jsonFieldNameOf field.jsonTag) = some (GoVal.vstr s) →
      mapLookup (maskSensitiveDataUsingStructTag (l₁ ++ field :: l₂) data)
          (jsonFieldNameOf field.jsonTag)
        = some (GoVal.vstr
            (if 2 ≤ s.length then s.take 1 ++ fixedMask ++ s.drop (s.length - 1)
             else if s.length = 1 then s ++ fixedMask
             else s)))
    ∧ (∀ (fields : List StructField) (data : JsonObj) (k : String),
        (∀ g ∈ fields, g.sensitiveTag = some "true" → jsonFieldNameOf g.jsonTag ≠ k) →
        mapLookup (maskSensitiveDataUsingStructTag fields data) k
          = mapLookup data k) := by
  constructor
  · intro l₁ l₂ field data s hsens h₁ h₂ hv
    have hsplit : maskSensitiveDataUsingStructTag (l₁ ++ field :: l₂) data
        = maskSensitiveDataUsingStructTag l₂
            (maskStep (maskSensitiveDataUsingStructTag l₁ data) field) := by
      simp [maskSensitiveDataUsingStructTag, List.foldl_append]
    rw [hsplit,
      mask_lookup_of_not_touched l₂ _ _ (fun g hg _ => h₂ g hg),
      maskStep_lookup_self _ field s hsens
        ((mask_lookup_of_not_touched l₁ data _ (fun g hg _ => h₁ g hg)).trans hv)]
  · exact mask_lookup_of_not_touched

/-- Witness for C8: `"secret123"` masks to `"s*****3"`, `"x"` masks to
`"x*****"`, and the non-sensitive `email` entry is untouched. -/
theorem claim_C8_witness :
    mapLookup
        (maskSensitiveDataUsingStructTag
          [⟨"password", some "true"⟩, ⟨"email,omitempty", none⟩]
          [("password", GoVal.vstr (goBytes "secret123")),
           ("email", GoVal.vstr (goBytes "john"))])
        "password"
      = some (GoVal.vstr (goBytes "s*****3"))
    ∧ mapLookup
        (maskSensitiveDataUsingStructTag [⟨"otp", some "true"⟩]
          [("otp", GoVal.vstr (goBytes "x"))])
        "otp"
      = some (GoVal.vstr (goBytes "x*****"))
    ∧ mapLookup
        (maskSensitiveDataUsingStructTag
          [⟨"password", some "true"⟩, ⟨"email,omitempty", none⟩]
          [("password", GoVal.vstr (goBytes "secret123")),
           ("email", GoVal.vstr (goBytes "john"))])
        "email"
      = some (GoVal.vstr (goBytes "john")) := by
  refine ⟨?_, ?_, ?_⟩
  · exact (claim_C8.1 [] [⟨"email,omitempty", none⟩] ⟨"password", some "true"⟩
      [("password", GoVal.vstr (goBytes "secret123")),
       ("email", GoVal.vstr (goBytes "john"))]
      (goBytes "secret123") rfl (by simp) (by decide) (by decide)).trans (by decide)
  · exact (claim_C8.1 [] [] ⟨"otp", some "true"⟩
      [("otp", GoVal.vstr (goBytes "x"))]
      (goBytes "x") rfl (by simp) (by simp) (by decide)).trans (by decide)
  · exact (claim_C8.2
      [⟨"password", some "true"⟩, ⟨"email,omitempty", none⟩]
      [("password", GoVal.vstr (goBytes "secret123")),
       ("email", GoVal.vstr (goBytes "john"))]
      "email" (by decide)).trans (by decide)

/-- Claim C10: masking applies only to string values — a key whose value is
absent or is not a string is left completely unchanged by
`maskSensitiveDataUsingStructTag`, whatever the struct's fields are. -/
theorem claim_C10 (fields : List StructField) (data : JsonObj) (k : String)
    (h : ∀ s : GoStr, mapLookup data k ≠ some (GoVal.vstr s)) :
    mapLookup (maskSensitiveDataUsingStructTag fields data) k
      = mapLookup data k := by
  induction fields generalizing data with
  | nil => rfl
  | cons g gs ih =>
      have hstep : mapLookup (maskStep data g) k = mapLookup data k := by
        by_cases hn : jsonFieldNameOf g.jsonTag = k
        · have hnoop : maskStep data g = data := by
            simp only [maskStep]
            by_cases hsens : g.sensitiveTag = some "true"
            · rw [if_pos hsens]
              cases hv : mapLookup data (jsonFieldNameOf g.jsonTag) with
              | none => rfl
              | some v =>
                  cases v with
                  | vstr s => exact absurd (hn ▸ hv) (h s)
                  | vnum n => rfl
                  | vbool b => rfl
                  | vnull => rfl
                  | varr elems => rfl
                  | vobj fs => rfl
            · rw [if_neg hsens]
          rw [hnoop]
        · exact maskStep_lookup_ne data g k hn
      calc mapLookup (maskSensitiveDataUsingStructTag (g :: gs) data) k
          = mapLookup (maskSensitiveDataUsingStructTag gs (maskStep data g)) k := rfl
        _ = mapLookup (maskStep data g) k :=
            ih (maskStep data g) fun s hs => by rw [hstep] at hs; exact h s hs
        _ = mapLookup data k := hstep

/-- Witness for C10: a sensitive field whose value is the number 42 reaches
the log unmasked. -/
theorem claim_C10_witness :
    mapLookup
        (maskSensitiveDataUsingStructTag [⟨"amount", some "true"⟩]
          [("amount", GoVal.vnum 42)])
        "amount"
      = some (GoVal.vnum 42) := by
  have h := claim_C10 [⟨"amount", some "true"⟩] [("amount", GoVal.vnum 42)] "amount"
    (by intro s hs; simp [mapLookup] at hs)
  exact h.trans (by decide)

end Blogger
